import Mathlib

/-!
Shallow embedding of the mitex TeX lexer
(`src/crates/mitex-parser/src/lexer.rs`).

The Rust file has three layers, all embedded here:

* the logos-generated token classifier (the `Token` enum with its
  regex/priority attributes), embedded as the executable scanner
  `nextToken` over `List Char`;
* the command-name sub-scanner `lex_command_name`, embedded as
  `scanCommandName` (byte-accurate: the Rust loop bumps the span by the
  constants `LEN_ASK = LEN_WORD = LEN_SPECIAL = 1`, i.e. ONE BYTE per
  accepted character, while the first character is bumped by
  `c.len_utf8()`);
* the lookahead engine `Lexer` with `new`, `peek`, `peek_text`,
  `peek_char`, `consume_word`, `eat`, embedded as the structure `Lexer`
  and functions of the same names.

Modelling conventions:

* Input text is a `List Char` (the Rust input is a `&str`, i.e. valid
  UTF-8, so a list of scalar values is the honest input type).  Byte
  positions are recovered through `Char.utf8Size`, which agrees with
  Rust `char::len_utf8`.
* Operations that can panic in Rust return `Res`, with `Res.panic` for a
  panic.  The two panic sources, both byte-level, are embedded exactly:
  `consume_word` slices `&text[cnt..]` (Rust `str` indexing panics when
  `cnt` is not a character boundary), and `lex_command_name` can bump
  the token span into the middle of a multi-byte character, after which
  the logos lexer yields `Err` from the misaligned position and
  `bump_batched` panics on `token.unwrap()`.  A pull whose span ends
  mid-character is modelled as an immediate `Res.panic`: in the Rust
  code the sliced text is not valid UTF-8 and the very next pull inside
  the same `bump_batched` refill hits the `unwrap` panic.
* Rust `char::is_whitespace` (Unicode `White_Space`) is embedded in full
  by `isRustWhitespace`.  Rust `char::is_alphanumeric` is embedded by
  `isRustAlphanumeric` as an explicit table of the Unicode 14.0.0
  letter and number general-category ranges, covering the letters and
  digits of every script; the residual model boundary (the small
  `Other_Alphabetic` set of combining marks, and later Unicode
  additions) is documented at the definition.
* Rust's `Vec` peek cache is popped from its end; after `bump_batched`
  pushes the pulled tokens and reverses the vector once, the pop side
  holds the first-scanned token.  We represent the cache as a Lean list
  whose HEAD is the pop side, so the refill simply stores the pulled
  tokens in scan order.
* The opaque `CommandSpec` extras value is threaded through the Rust
  lexer but never consulted by any logic in this file's source, so the
  embedding omits it.
* `eat` returns `(kind.into(), text)` where `Into<SyntaxKind>` is a
  one-to-one relabelling living outside this source file; the embedding
  keeps the `Token` itself, which preserves the pair's text component
  exactly.
-/

namespace Mitex

set_option maxRecDepth 8192

/-- Result of an operation that can panic in Rust: either a value or a
panic (out-of-bounds or non-boundary byte slicing / `Option::unwrap` on
a logos `Err`). -/
inductive Res (α : Type) where
  | panic
  | ok (val : α)
  deriving DecidableEq

/-- Which of the three delimiter pairs a `Left`/`Right` token denotes
(`BraceKind` in the source). -/
inductive BraceKind where
  | Curly
  | Bracket
  | Paren
  deriving DecidableEq

/-- The command name classification used by the parser (`CommandName` in
the source). -/
inductive CommandName where
  | Generic
  | BeginEnvironment
  | EndEnvironment
  | BeginBlockComment
  | EndBlockComment
  | Left
  | Right
  deriving DecidableEq

/-- The token type defined by logos in the source (`Token`), with the
same variants and payloads. -/
inductive Token where
  | LineBreak
  | Whitespace
  | LineComment
  | Left (k : BraceKind)
  | Right (k : BraceKind)
  | Comma
  | Tilde
  | Divide
  | Equal
  | And
  | Caret
  | Apostrophe
  | Underline
  | Word
  | Dollar
  | NewLine
  | CommandName (n : CommandName)
  deriving DecidableEq

/-- One step of the raw classifier: end of input, a panic, or a token
together with its matched slice and the rest of the input. -/
inductive ScanResult where
  | eof
  | panic
  | tok (t : Token) (text : List Char) (rest : List Char)
  deriving DecidableEq

/-- Rust `char::is_whitespace`: the Unicode `White_Space` property,
which is exactly the code points listed here.  The logos regex class
`\s` in the `Token` attributes denotes the same set. -/
def isRustWhitespace (c : Char) : Bool :=
  decide (c.toNat = 0x9 ∨ c.toNat = 0xA ∨ c.toNat = 0xB ∨ c.toNat = 0xC ∨
    c.toNat = 0xD ∨ c.toNat = 0x20 ∨ c.toNat = 0x85 ∨ c.toNat = 0xA0 ∨
    c.toNat = 0x1680 ∨ (0x2000 ≤ c.toNat ∧ c.toNat ≤ 0x200A) ∨
    c.toNat = 0x2028 ∨ c.toNat = 0x2029 ∨ c.toNat = 0x202F ∨
    c.toNat = 0x205F ∨ c.toNat = 0x3000)

/-- The Unicode code-point ranges whose general category is a letter
(Lu, Ll, Lt, Lm, Lo) or a number (Nd, Nl, No), per Unicode 14.0.0:
the character classes behind Rust `char::is_alphanumeric`.  Inclusive
bounds, 733 entries, ascending. -/
def alphanumericRanges : List (Nat × Nat) :=
  [(0x30, 0x39), (0x41, 0x5A), (0x61, 0x7A), (0xAA, 0xAA),
   (0xB2, 0xB3), (0xB5, 0xB5), (0xB9, 0xBA), (0xBC, 0xBE),
   (0xC0, 0xD6), (0xD8, 0xF6), (0xF8, 0x2C1), (0x2C6, 0x2D1),
   (0x2E0, 0x2E4), (0x2EC, 0x2EC), (0x2EE, 0x2EE), (0x370, 0x374),
   (0x376, 0x377), (0x37A, 0x37D), (0x37F, 0x37F), (0x386, 0x386),
   (0x388, 0x38A), (0x38C, 0x38C), (0x38E, 0x3A1), (0x3A3, 0x3F5),
   (0x3F7, 0x481), (0x48A, 0x52F), (0x531, 0x556), (0x559, 0x559),
   (0x560, 0x588), (0x5D0, 0x5EA), (0x5EF, 0x5F2), (0x620, 0x64A),
   (0x660, 0x669), (0x66E, 0x66F), (0x671, 0x6D3), (0x6D5, 0x6D5),
   (0x6E5, 0x6E6), (0x6EE, 0x6FC), (0x6FF, 0x6FF), (0x710, 0x710),
   (0x712, 0x72F), (0x74D, 0x7A5), (0x7B1, 0x7B1), (0x7C0, 0x7EA),
   (0x7F4, 0x7F5), (0x7FA, 0x7FA), (0x800, 0x815), (0x81A, 0x81A),
   (0x824, 0x824), (0x828, 0x828), (0x840, 0x858), (0x860, 0x86A),
   (0x870, 0x887), (0x889, 0x88E), (0x8A0, 0x8C9), (0x904, 0x939),
   (0x93D, 0x93D), (0x950, 0x950), (0x958, 0x961), (0x966, 0x96F),
   (0x971, 0x980), (0x985, 0x98C), (0x98F, 0x990), (0x993, 0x9A8),
   (0x9AA, 0x9B0), (0x9B2, 0x9B2), (0x9B6, 0x9B9), (0x9BD, 0x9BD),
   (0x9CE, 0x9CE), (0x9DC, 0x9DD), (0x9DF, 0x9E1), (0x9E6, 0x9F1),
   (0x9F4, 0x9F9), (0x9FC, 0x9FC), (0xA05, 0xA0A), (0xA0F, 0xA10),
   (0xA13, 0xA28), (0xA2A, 0xA30), (0xA32, 0xA33), (0xA35, 0xA36),
   (0xA38, 0xA39), (0xA59, 0xA5C), (0xA5E, 0xA5E), (0xA66, 0xA6F),
   (0xA72, 0xA74), (0xA85, 0xA8D), (0xA8F, 0xA91), (0xA93, 0xAA8),
   (0xAAA, 0xAB0), (0xAB2, 0xAB3), (0xAB5, 0xAB9), (0xABD, 0xABD),
   (0xAD0, 0xAD0), (0xAE0, 0xAE1), (0xAE6, 0xAEF), (0xAF9, 0xAF9),
   (0xB05, 0xB0C), (0xB0F, 0xB10), (0xB13, 0xB28), (0xB2A, 0xB30),
   (0xB32, 0xB33), (0xB35, 0xB39), (0xB3D, 0xB3D), (0xB5C, 0xB5D),
   (0xB5F, 0xB61), (0xB66, 0xB6F), (0xB71, 0xB77), (0xB83, 0xB83),
   (0xB85, 0xB8A), (0xB8E, 0xB90), (0xB92, 0xB95), (0xB99, 0xB9A),
   (0xB9C, 0xB9C), (0xB9E, 0xB9F), (0xBA3, 0xBA4), (0xBA8, 0xBAA),
   (0xBAE, 0xBB9), (0xBD0, 0xBD0), (0xBE6, 0xBF2), (0xC05, 0xC0C),
   (0xC0E, 0xC10), (0xC12, 0xC28), (0xC2A, 0xC39), (0xC3D, 0xC3D),
   (0xC58, 0xC5A), (0xC5D, 0xC5D), (0xC60, 0xC61), (0xC66, 0xC6F),
   (0xC78, 0xC7E), (0xC80, 0xC80), (0xC85, 0xC8C), (0xC8E, 0xC90),
   (0xC92, 0xCA8), (0xCAA, 0xCB3), (0xCB5, 0xCB9), (0xCBD, 0xCBD),
   (0xCDD, 0xCDE), (0xCE0, 0xCE1), (0xCE6, 0xCEF), (0xCF1, 0xCF2),
   (0xD04, 0xD0C), (0xD0E, 0xD10), (0xD12, 0xD3A), (0xD3D, 0xD3D),
   (0xD4E, 0xD4E), (0xD54, 0xD56), (0xD58, 0xD61), (0xD66, 0xD78),
   (0xD7A, 0xD7F), (0xD85, 0xD96), (0xD9A, 0xDB1), (0xDB3, 0xDBB),
   (0xDBD, 0xDBD), (0xDC0, 0xDC6), (0xDE6, 0xDEF), (0xE01, 0xE30),
   (0xE32, 0xE33), (0xE40, 0xE46), (0xE50, 0xE59), (0xE81, 0xE82),
   (0xE84, 0xE84), (0xE86, 0xE8A), (0xE8C, 0xEA3), (0xEA5, 0xEA5),
   (0xEA7, 0xEB0), (0xEB2, 0xEB3), (0xEBD, 0xEBD), (0xEC0, 0xEC4),
   (0xEC6, 0xEC6), (0xED0, 0xED9), (0xEDC, 0xEDF), (0xF00, 0xF00),
   (0xF20, 0xF33), (0xF40, 0xF47), (0xF49, 0xF6C), (0xF88, 0xF8C),
   (0x1000, 0x102A), (0x103F, 0x1049), (0x1050, 0x1055), (0x105A, 0x105D),
   (0x1061, 0x1061), (0x1065, 0x1066), (0x106E, 0x1070), (0x1075, 0x1081),
   (0x108E, 0x108E), (0x1090, 0x1099), (0x10A0, 0x10C5), (0x10C7, 0x10C7),
   (0x10CD, 0x10CD), (0x10D0, 0x10FA), (0x10FC, 0x1248), (0x124A, 0x124D),
   (0x1250, 0x1256), (0x1258, 0x1258), (0x125A, 0x125D), (0x1260, 0x1288),
   (0x128A, 0x128D), (0x1290, 0x12B0), (0x12B2, 0x12B5), (0x12B8, 0x12BE),
   (0x12C0, 0x12C0), (0x12C2, 0x12C5), (0x12C8, 0x12D6), (0x12D8, 0x1310),
   (0x1312, 0x1315), (0x1318, 0x135A), (0x1369, 0x137C), (0x1380, 0x138F),
   (0x13A0, 0x13F5), (0x13F8, 0x13FD), (0x1401, 0x166C), (0x166F, 0x167F),
   (0x1681, 0x169A), (0x16A0, 0x16EA), (0x16EE, 0x16F8), (0x1700, 0x1711),
   (0x171F, 0x1731), (0x1740, 0x1751), (0x1760, 0x176C), (0x176E, 0x1770),
   (0x1780, 0x17B3), (0x17D7, 0x17D7), (0x17DC, 0x17DC), (0x17E0, 0x17E9),
   (0x17F0, 0x17F9), (0x1810, 0x1819), (0x1820, 0x1878), (0x1880, 0x1884),
   (0x1887, 0x18A8), (0x18AA, 0x18AA), (0x18B0, 0x18F5), (0x1900, 0x191E),
   (0x1946, 0x196D), (0x1970, 0x1974), (0x1980, 0x19AB), (0x19B0, 0x19C9),
   (0x19D0, 0x19DA), (0x1A00, 0x1A16), (0x1A20, 0x1A54), (0x1A80, 0x1A89),
   (0x1A90, 0x1A99), (0x1AA7, 0x1AA7), (0x1B05, 0x1B33), (0x1B45, 0x1B4C),
   (0x1B50, 0x1B59), (0x1B83, 0x1BA0), (0x1BAE, 0x1BE5), (0x1C00, 0x1C23),
   (0x1C40, 0x1C49), (0x1C4D, 0x1C7D), (0x1C80, 0x1C88), (0x1C90, 0x1CBA),
   (0x1CBD, 0x1CBF), (0x1CE9, 0x1CEC), (0x1CEE, 0x1CF3), (0x1CF5, 0x1CF6),
   (0x1CFA, 0x1CFA), (0x1D00, 0x1DBF), (0x1E00, 0x1F15), (0x1F18, 0x1F1D),
   (0x1F20, 0x1F45), (0x1F48, 0x1F4D), (0x1F50, 0x1F57), (0x1F59, 0x1F59),
   (0x1F5B, 0x1F5B), (0x1F5D, 0x1F5D), (0x1F5F, 0x1F7D), (0x1F80, 0x1FB4),
   (0x1FB6, 0x1FBC), (0x1FBE, 0x1FBE), (0x1FC2, 0x1FC4), (0x1FC6, 0x1FCC),
   (0x1FD0, 0x1FD3), (0x1FD6, 0x1FDB), (0x1FE0, 0x1FEC), (0x1FF2, 0x1FF4),
   (0x1FF6, 0x1FFC), (0x2070, 0x2071), (0x2074, 0x2079), (0x207F, 0x2089),
   (0x2090, 0x209C), (0x2102, 0x2102), (0x2107, 0x2107), (0x210A, 0x2113),
   (0x2115, 0x2115), (0x2119, 0x211D), (0x2124, 0x2124), (0x2126, 0x2126),
   (0x2128, 0x2128), (0x212A, 0x212D), (0x212F, 0x2139), (0x213C, 0x213F),
   (0x2145, 0x2149), (0x214E, 0x214E), (0x2150, 0x2189), (0x2460, 0x249B),
   (0x24EA, 0x24FF), (0x2776, 0x2793), (0x2C00, 0x2CE4), (0x2CEB, 0x2CEE),
   (0x2CF2, 0x2CF3), (0x2CFD, 0x2CFD), (0x2D00, 0x2D25), (0x2D27, 0x2D27),
   (0x2D2D, 0x2D2D), (0x2D30, 0x2D67), (0x2D6F, 0x2D6F), (0x2D80, 0x2D96),
   (0x2DA0, 0x2DA6), (0x2DA8, 0x2DAE), (0x2DB0, 0x2DB6), (0x2DB8, 0x2DBE),
   (0x2DC0, 0x2DC6), (0x2DC8, 0x2DCE), (0x2DD0, 0x2DD6), (0x2DD8, 0x2DDE),
   (0x2E2F, 0x2E2F), (0x3005, 0x3007), (0x3021, 0x3029), (0x3031, 0x3035),
   (0x3038, 0x303C), (0x3041, 0x3096), (0x309D, 0x309F), (0x30A1, 0x30FA),
   (0x30FC, 0x30FF), (0x3105, 0x312F), (0x3131, 0x318E), (0x3192, 0x3195),
   (0x31A0, 0x31BF), (0x31F0, 0x31FF), (0x3220, 0x3229), (0x3248, 0x324F),
   (0x3251, 0x325F), (0x3280, 0x3289), (0x32B1, 0x32BF), (0x3400, 0x4DBF),
   (0x4E00, 0xA48C), (0xA4D0, 0xA4FD), (0xA500, 0xA60C), (0xA610, 0xA62B),
   (0xA640, 0xA66E), (0xA67F, 0xA69D), (0xA6A0, 0xA6EF), (0xA717, 0xA71F),
   (0xA722, 0xA788), (0xA78B, 0xA7CA), (0xA7D0, 0xA7D1), (0xA7D3, 0xA7D3),
   (0xA7D5, 0xA7D9), (0xA7F2, 0xA801), (0xA803, 0xA805), (0xA807, 0xA80A),
   (0xA80C, 0xA822), (0xA830, 0xA835), (0xA840, 0xA873), (0xA882, 0xA8B3),
   (0xA8D0, 0xA8D9), (0xA8F2, 0xA8F7), (0xA8FB, 0xA8FB), (0xA8FD, 0xA8FE),
   (0xA900, 0xA925), (0xA930, 0xA946), (0xA960, 0xA97C), (0xA984, 0xA9B2),
   (0xA9CF, 0xA9D9), (0xA9E0, 0xA9E4), (0xA9E6, 0xA9FE), (0xAA00, 0xAA28),
   (0xAA40, 0xAA42), (0xAA44, 0xAA4B), (0xAA50, 0xAA59), (0xAA60, 0xAA76),
   (0xAA7A, 0xAA7A), (0xAA7E, 0xAAAF), (0xAAB1, 0xAAB1), (0xAAB5, 0xAAB6),
   (0xAAB9, 0xAABD), (0xAAC0, 0xAAC0), (0xAAC2, 0xAAC2), (0xAADB, 0xAADD),
   (0xAAE0, 0xAAEA), (0xAAF2, 0xAAF4), (0xAB01, 0xAB06), (0xAB09, 0xAB0E),
   (0xAB11, 0xAB16), (0xAB20, 0xAB26), (0xAB28, 0xAB2E), (0xAB30, 0xAB5A),
   (0xAB5C, 0xAB69), (0xAB70, 0xABE2), (0xABF0, 0xABF9), (0xAC00, 0xD7A3),
   (0xD7B0, 0xD7C6), (0xD7CB, 0xD7FB), (0xF900, 0xFA6D), (0xFA70, 0xFAD9),
   (0xFB00, 0xFB06), (0xFB13, 0xFB17), (0xFB1D, 0xFB1D), (0xFB1F, 0xFB28),
   (0xFB2A, 0xFB36), (0xFB38, 0xFB3C), (0xFB3E, 0xFB3E), (0xFB40, 0xFB41),
   (0xFB43, 0xFB44), (0xFB46, 0xFBB1), (0xFBD3, 0xFD3D), (0xFD50, 0xFD8F),
   (0xFD92, 0xFDC7), (0xFDF0, 0xFDFB), (0xFE70, 0xFE74), (0xFE76, 0xFEFC),
   (0xFF10, 0xFF19), (0xFF21, 0xFF3A), (0xFF41, 0xFF5A), (0xFF66, 0xFFBE),
   (0xFFC2, 0xFFC7), (0xFFCA, 0xFFCF), (0xFFD2, 0xFFD7), (0xFFDA, 0xFFDC),
   (0x10000, 0x1000B), (0x1000D, 0x10026), (0x10028, 0x1003A), (0x1003C, 0x1003D),
   (0x1003F, 0x1004D), (0x10050, 0x1005D), (0x10080, 0x100FA), (0x10107, 0x10133),
   (0x10140, 0x10178), (0x1018A, 0x1018B), (0x10280, 0x1029C), (0x102A0, 0x102D0),
   (0x102E1, 0x102FB), (0x10300, 0x10323), (0x1032D, 0x1034A), (0x10350, 0x10375),
   (0x10380, 0x1039D), (0x103A0, 0x103C3), (0x103C8, 0x103CF), (0x103D1, 0x103D5),
   (0x10400, 0x1049D), (0x104A0, 0x104A9), (0x104B0, 0x104D3), (0x104D8, 0x104FB),
   (0x10500, 0x10527), (0x10530, 0x10563), (0x10570, 0x1057A), (0x1057C, 0x1058A),
   (0x1058C, 0x10592), (0x10594, 0x10595), (0x10597, 0x105A1), (0x105A3, 0x105B1),
   (0x105B3, 0x105B9), (0x105BB, 0x105BC), (0x10600, 0x10736), (0x10740, 0x10755),
   (0x10760, 0x10767), (0x10780, 0x10785), (0x10787, 0x107B0), (0x107B2, 0x107BA),
   (0x10800, 0x10805), (0x10808, 0x10808), (0x1080A, 0x10835), (0x10837, 0x10838),
   (0x1083C, 0x1083C), (0x1083F, 0x10855), (0x10858, 0x10876), (0x10879, 0x1089E),
   (0x108A7, 0x108AF), (0x108E0, 0x108F2), (0x108F4, 0x108F5), (0x108FB, 0x1091B),
   (0x10920, 0x10939), (0x10980, 0x109B7), (0x109BC, 0x109CF), (0x109D2, 0x10A00),
   (0x10A10, 0x10A13), (0x10A15, 0x10A17), (0x10A19, 0x10A35), (0x10A40, 0x10A48),
   (0x10A60, 0x10A7E), (0x10A80, 0x10A9F), (0x10AC0, 0x10AC7), (0x10AC9, 0x10AE4),
   (0x10AEB, 0x10AEF), (0x10B00, 0x10B35), (0x10B40, 0x10B55), (0x10B58, 0x10B72),
   (0x10B78, 0x10B91), (0x10BA9, 0x10BAF), (0x10C00, 0x10C48), (0x10C80, 0x10CB2),
   (0x10CC0, 0x10CF2), (0x10CFA, 0x10D23), (0x10D30, 0x10D39), (0x10E60, 0x10E7E),
   (0x10E80, 0x10EA9), (0x10EB0, 0x10EB1), (0x10F00, 0x10F27), (0x10F30, 0x10F45),
   (0x10F51, 0x10F54), (0x10F70, 0x10F81), (0x10FB0, 0x10FCB), (0x10FE0, 0x10FF6),
   (0x11003, 0x11037), (0x11052, 0x1106F), (0x11071, 0x11072), (0x11075, 0x11075),
   (0x11083, 0x110AF), (0x110D0, 0x110E8), (0x110F0, 0x110F9), (0x11103, 0x11126),
   (0x11136, 0x1113F), (0x11144, 0x11144), (0x11147, 0x11147), (0x11150, 0x11172),
   (0x11176, 0x11176), (0x11183, 0x111B2), (0x111C1, 0x111C4), (0x111D0, 0x111DA),
   (0x111DC, 0x111DC), (0x111E1, 0x111F4), (0x11200, 0x11211), (0x11213, 0x1122B),
   (0x11280, 0x11286), (0x11288, 0x11288), (0x1128A, 0x1128D), (0x1128F, 0x1129D),
   (0x1129F, 0x112A8), (0x112B0, 0x112DE), (0x112F0, 0x112F9), (0x11305, 0x1130C),
   (0x1130F, 0x11310), (0x11313, 0x11328), (0x1132A, 0x11330), (0x11332, 0x11333),
   (0x11335, 0x11339), (0x1133D, 0x1133D), (0x11350, 0x11350), (0x1135D, 0x11361),
   (0x11400, 0x11434), (0x11447, 0x1144A), (0x11450, 0x11459), (0x1145F, 0x11461),
   (0x11480, 0x114AF), (0x114C4, 0x114C5), (0x114C7, 0x114C7), (0x114D0, 0x114D9),
   (0x11580, 0x115AE), (0x115D8, 0x115DB), (0x11600, 0x1162F), (0x11644, 0x11644),
   (0x11650, 0x11659), (0x11680, 0x116AA), (0x116B8, 0x116B8), (0x116C0, 0x116C9),
   (0x11700, 0x1171A), (0x11730, 0x1173B), (0x11740, 0x11746), (0x11800, 0x1182B),
   (0x118A0, 0x118F2), (0x118FF, 0x11906), (0x11909, 0x11909), (0x1190C, 0x11913),
   (0x11915, 0x11916), (0x11918, 0x1192F), (0x1193F, 0x1193F), (0x11941, 0x11941),
   (0x11950, 0x11959), (0x119A0, 0x119A7), (0x119AA, 0x119D0), (0x119E1, 0x119E1),
   (0x119E3, 0x119E3), (0x11A00, 0x11A00), (0x11A0B, 0x11A32), (0x11A3A, 0x11A3A),
   (0x11A50, 0x11A50), (0x11A5C, 0x11A89), (0x11A9D, 0x11A9D), (0x11AB0, 0x11AF8),
   (0x11C00, 0x11C08), (0x11C0A, 0x11C2E), (0x11C40, 0x11C40), (0x11C50, 0x11C6C),
   (0x11C72, 0x11C8F), (0x11D00, 0x11D06), (0x11D08, 0x11D09), (0x11D0B, 0x11D30),
   (0x11D46, 0x11D46), (0x11D50, 0x11D59), (0x11D60, 0x11D65), (0x11D67, 0x11D68),
   (0x11D6A, 0x11D89), (0x11D98, 0x11D98), (0x11DA0, 0x11DA9), (0x11EE0, 0x11EF2),
   (0x11FB0, 0x11FB0), (0x11FC0, 0x11FD4), (0x12000, 0x12399), (0x12400, 0x1246E),
   (0x12480, 0x12543), (0x12F90, 0x12FF0), (0x13000, 0x1342E), (0x14400, 0x14646),
   (0x16800, 0x16A38), (0x16A40, 0x16A5E), (0x16A60, 0x16A69), (0x16A70, 0x16ABE),
   (0x16AC0, 0x16AC9), (0x16AD0, 0x16AED), (0x16B00, 0x16B2F), (0x16B40, 0x16B43),
   (0x16B50, 0x16B59), (0x16B5B, 0x16B61), (0x16B63, 0x16B77), (0x16B7D, 0x16B8F),
   (0x16E40, 0x16E96), (0x16F00, 0x16F4A), (0x16F50, 0x16F50), (0x16F93, 0x16F9F),
   (0x16FE0, 0x16FE1), (0x16FE3, 0x16FE3), (0x17000, 0x187F7), (0x18800, 0x18CD5),
   (0x18D00, 0x18D08), (0x1AFF0, 0x1AFF3), (0x1AFF5, 0x1AFFB), (0x1AFFD, 0x1AFFE),
   (0x1B000, 0x1B122), (0x1B150, 0x1B152), (0x1B164, 0x1B167), (0x1B170, 0x1B2FB),
   (0x1BC00, 0x1BC6A), (0x1BC70, 0x1BC7C), (0x1BC80, 0x1BC88), (0x1BC90, 0x1BC99),
   (0x1D2E0, 0x1D2F3), (0x1D360, 0x1D378), (0x1D400, 0x1D454), (0x1D456, 0x1D49C),
   (0x1D49E, 0x1D49F), (0x1D4A2, 0x1D4A2), (0x1D4A5, 0x1D4A6), (0x1D4A9, 0x1D4AC),
   (0x1D4AE, 0x1D4B9), (0x1D4BB, 0x1D4BB), (0x1D4BD, 0x1D4C3), (0x1D4C5, 0x1D505),
   (0x1D507, 0x1D50A), (0x1D50D, 0x1D514), (0x1D516, 0x1D51C), (0x1D51E, 0x1D539),
   (0x1D53B, 0x1D53E), (0x1D540, 0x1D544), (0x1D546, 0x1D546), (0x1D54A, 0x1D550),
   (0x1D552, 0x1D6A5), (0x1D6A8, 0x1D6C0), (0x1D6C2, 0x1D6DA), (0x1D6DC, 0x1D6FA),
   (0x1D6FC, 0x1D714), (0x1D716, 0x1D734), (0x1D736, 0x1D74E), (0x1D750, 0x1D76E),
   (0x1D770, 0x1D788), (0x1D78A, 0x1D7A8), (0x1D7AA, 0x1D7C2), (0x1D7C4, 0x1D7CB),
   (0x1D7CE, 0x1D7FF), (0x1DF00, 0x1DF1E), (0x1E100, 0x1E12C), (0x1E137, 0x1E13D),
   (0x1E140, 0x1E149), (0x1E14E, 0x1E14E), (0x1E290, 0x1E2AD), (0x1E2C0, 0x1E2EB),
   (0x1E2F0, 0x1E2F9), (0x1E7E0, 0x1E7E6), (0x1E7E8, 0x1E7EB), (0x1E7ED, 0x1E7EE),
   (0x1E7F0, 0x1E7FE), (0x1E800, 0x1E8C4), (0x1E8C7, 0x1E8CF), (0x1E900, 0x1E943),
   (0x1E94B, 0x1E94B), (0x1E950, 0x1E959), (0x1EC71, 0x1ECAB), (0x1ECAD, 0x1ECAF),
   (0x1ECB1, 0x1ECB4), (0x1ED01, 0x1ED2D), (0x1ED2F, 0x1ED3D), (0x1EE00, 0x1EE03),
   (0x1EE05, 0x1EE1F), (0x1EE21, 0x1EE22), (0x1EE24, 0x1EE24), (0x1EE27, 0x1EE27),
   (0x1EE29, 0x1EE32), (0x1EE34, 0x1EE37), (0x1EE39, 0x1EE39), (0x1EE3B, 0x1EE3B),
   (0x1EE42, 0x1EE42), (0x1EE47, 0x1EE47), (0x1EE49, 0x1EE49), (0x1EE4B, 0x1EE4B),
   (0x1EE4D, 0x1EE4F), (0x1EE51, 0x1EE52), (0x1EE54, 0x1EE54), (0x1EE57, 0x1EE57),
   (0x1EE59, 0x1EE59), (0x1EE5B, 0x1EE5B), (0x1EE5D, 0x1EE5D), (0x1EE5F, 0x1EE5F),
   (0x1EE61, 0x1EE62), (0x1EE64, 0x1EE64), (0x1EE67, 0x1EE6A), (0x1EE6C, 0x1EE72),
   (0x1EE74, 0x1EE77), (0x1EE79, 0x1EE7C), (0x1EE7E, 0x1EE7E), (0x1EE80, 0x1EE89),
   (0x1EE8B, 0x1EE9B), (0x1EEA1, 0x1EEA3), (0x1EEA5, 0x1EEA9), (0x1EEAB, 0x1EEBB),
   (0x1F100, 0x1F10C), (0x1FBF0, 0x1FBF9), (0x20000, 0x2A6DF), (0x2A700, 0x2B738),
   (0x2B740, 0x2B81D), (0x2B820, 0x2CEA1), (0x2CEB0, 0x2EBE0), (0x2F800, 0x2FA1D),
   (0x30000, 0x3134A)]

/-- Rust `char::is_alphanumeric`: true iff the character is Alphabetic
or numeric (Nd, Nl, No).  Embedded as membership in the Unicode letter
and number category ranges (`alphanumericRanges`), covering the
letters and digits of every script — Latin (including the extended
blocks), Greek, Cyrillic, Arabic, Devanagari, CJK, and so on.
Remaining model boundary, stated for honesty: Rust's Alphabetic
property additionally contains the `Other_Alphabetic` code points
(combining vowel signs and a handful of letter-like symbols outside
the letter and number categories), and a newer Unicode revision can
add characters; such code points are classified non-alphanumeric
here. -/
def isRustAlphanumeric (c : Char) : Bool :=
  alphanumericRanges.any (fun r => decide (r.1 ≤ c.toNat ∧ c.toNat ≤ r.2))

/-- Characters matched by the `LineBreak` rule `[\r\n]+`. -/
def isNewlineChar (c : Char) : Bool :=
  c == Char.ofNat 13 || c == Char.ofNat 10

/-- Characters matched by the `Whitespace` rule `[^\S\r\n]+`:
whitespace other than carriage return and line feed. -/
def isOtherWhitespace (c : Char) : Bool :=
  isRustWhitespace c && !isNewlineChar c

/-- Characters matched by the `Word` rule
`[^\s\\%\{\},\$\[\]\(\)\~/=_'^]+`: everything except whitespace and the
listed special characters.  Note that `&` is NOT excluded. -/
def isWordChar (c : Char) : Bool :=
  !(isRustWhitespace c || c == '\\' || c == '%' || c == Char.ofNat 123 ||
    c == Char.ofNat 125 || c == ',' || c == '$' || c == '[' || c == ']' ||
    c == '(' || c == ')' || c == '~' || c == '/' || c == '=' || c == '_' ||
    c == Char.ofNat 39 || c == '^')

/-- Total UTF-8 byte length of a character list (`str::len` on the
corresponding Rust slice). -/
def byteLen : List Char → Nat
  | [] => 0
  | c :: cs => c.utf8Size + byteLen cs

/-- Split a character list at a byte offset, as Rust byte slicing does:
`Res.ok (a, b)` with `a ++ b` the input and `a` holding exactly `n`
bytes when `n` is a character boundary; `Res.panic` when `n` falls
inside a multi-byte character or past the end (Rust `str` indexing and
logos `bump` panic there). -/
def splitAtBytes : Nat → List Char → Res (List Char × List Char)
  | 0, cs => Res.ok ([], cs)
  | _ + 1, [] => Res.panic
  | n + 1, c :: cs =>
    if c.utf8Size ≤ n + 1 then
      match splitAtBytes (n + 1 - c.utf8Size) cs with
      | Res.panic => Res.panic
      | Res.ok (a, b) => Res.ok (c :: a, b)
    else Res.panic

/-- The `classify` function of the source: maps a command name (without
its leading backslash) to its `CommandName`. -/
def classify (name : List Char) : CommandName :=
  if name = ['b', 'e', 'g', 'i', 'n'] then CommandName.BeginEnvironment
  else if name = ['e', 'n', 'd'] then CommandName.EndEnvironment
  else if name = ['i', 'f', 'f', 'a', 'l', 's', 'e'] then CommandName.BeginBlockComment
  else if name = ['f', 'i'] then CommandName.EndBlockComment
  else if name = ['l', 'e', 'f', 't'] then CommandName.Left
  else if name = ['r', 'i', 'g', 'h', 't'] then CommandName.Right
  else CommandName.Generic

/-- Bytes bumped by the `for c in chars` loop of `lex_command_name`.
Faithful to the source: each accepted character bumps the span by the
constant 1 (`LEN_ASK`, `LEN_WORD`, `LEN_SPECIAL`), regardless of the
character's UTF-8 width; `*` is accepted and stops the loop; any other
unaccepted character stops the loop without being consumed. -/
def nameTailBytes : List Char → Nat
  | [] => 0
  | c :: cs =>
    if c == '*' then 1
    else if isRustAlphanumeric c then 1 + nameTailBytes cs
    else if c == '@' || c == ':' then 1 + nameTailBytes cs
    else 0

/-- The `lex_command_name` function of the source, applied to the
characters following the leading backslash; the resulting token slice
includes the backslash.  The function always reports
`CommandName.Generic`; specialisation happens later in `bump_batched`.
The first character is bumped by its full UTF-8 width
(`c.len_utf8()`), the loop characters by one byte each
(`nameTailBytes`); if the resulting byte count is not a character
boundary the scan panics (see the file header). -/
def scanCommandName (cs : List Char) : ScanResult :=
  match cs with
  | [] => ScanResult.tok (Token.CommandName CommandName.Generic) ['\\'] []
  | c :: cs' =>
    if isRustWhitespace c then
      ScanResult.tok (Token.CommandName CommandName.Generic) ['\\'] (c :: cs')
    else
      match splitAtBytes
          (c.utf8Size +
            (if !(isRustAlphanumeric c || c == '@') then 0 else nameTailBytes cs'))
          (c :: cs') with
      | Res.panic => ScanResult.panic
      | Res.ok (name, rest) =>
        ScanResult.tok (Token.CommandName CommandName.Generic) ('\\' :: name) rest

/-- The thirteen single-character rules of the `Token` rule table: the
three `Left` and three `Right` delimiter tokens (`{` `[` `(` `}` `]`
`)`) and the seven punctuation tokens (`,` `~` `/` `=` `^` apostrophe
`_`); each matches exactly its one character. -/
def simpleTable : List (Char × Token) :=
  [(Char.ofNat 123, Token.Left BraceKind.Curly),
   ('[', Token.Left BraceKind.Bracket),
   ('(', Token.Left BraceKind.Paren),
   (Char.ofNat 125, Token.Right BraceKind.Curly),
   (']', Token.Right BraceKind.Bracket),
   (')', Token.Right BraceKind.Paren),
   (',', Token.Comma),
   ('~', Token.Tilde),
   ('/', Token.Divide),
   ('=', Token.Equal),
   ('^', Token.Caret),
   (Char.ofNat 39, Token.Apostrophe),
   ('_', Token.Underline)]

/-- Look up a character among the single-character rules. -/
def simpleToken (c : Char) : Option Token :=
  (simpleTable.find? (fun p => p.1 == c)).map (fun p => p.2)

/-- The logos-generated classifier for the `Token` rule table: one step
from the current cursor.  Dispatch is on the first character; the rule
table's character classes make all rules disjoint on their first
character except for three documented overlaps, resolved as logos does
(longest match first, then the declared priorities):

* `\\` + `\\`: the two-byte `NewLine` rule (priority 4) beats the
  one-byte `CommandName` rule (priority 3);
* `_` (priority 2) beats `Word` (priority 1) — `_` is also excluded
  from the `Word` class, so `_` never extends a word run;
* `&` is both the `And` token (default priority 2) and a `Word`
  character (priority 1): a word run of length at least 2 starting at
  `&` is the longer match and wins; a length-1 match resolves to `And`
  by priority. -/
def nextToken : List Char → ScanResult
  | [] => ScanResult.eof
  | c :: cs =>
    if isNewlineChar c then
      ScanResult.tok Token.LineBreak (c :: cs.takeWhile isNewlineChar)
        (cs.dropWhile isNewlineChar)
    else if isRustWhitespace c then
      ScanResult.tok Token.Whitespace (c :: cs.takeWhile isOtherWhitespace)
        (cs.dropWhile isOtherWhitespace)
    else if c == '%' then
      ScanResult.tok Token.LineComment (c :: cs.takeWhile (fun x => !isNewlineChar x))
        (cs.dropWhile (fun x => !isNewlineChar x))
    else
      match simpleToken c with
      | some t => ScanResult.tok t [c] cs
      | none =>
        if c == '$' then
          match cs with
          | d :: cs' =>
            if d == '$' then ScanResult.tok Token.Dollar [c, d] cs'
            else ScanResult.tok Token.Dollar [c] cs
          | [] => ScanResult.tok Token.Dollar [c] []
        else if c == '\\' then
          match cs with
          | d :: cs' =>
            if d == '\\' then ScanResult.tok Token.NewLine [c, d] cs'
            else scanCommandName cs
          | [] => scanCommandName []
        else if c == '&' then
          if cs.takeWhile isWordChar = [] then ScanResult.tok Token.And [c] cs
          else
            ScanResult.tok Token.Word (c :: cs.takeWhile isWordChar)
              (cs.dropWhile isWordChar)
        else
          ScanResult.tok Token.Word (c :: cs.takeWhile isWordChar)
            (cs.dropWhile isWordChar)

/-- The reclassification applied by `bump_batched` to each pulled
token: a `CommandName(Generic)` token is replaced by
`CommandName(classify(&text[1..]))`.  The slice `&text[1..]` drops the
leading backslash, a one-byte character, so the byte drop equals
`List.drop 1` here. -/
def reclassify (t : Token) (text : List Char) : Token × List Char :=
  if t = Token.CommandName CommandName.Generic then
    (Token.CommandName (classify (text.drop 1)), text)
  else (t, text)

/-- The peek cache capacity computed in `bump_batched`:
`(PAGE_SIZE - 16) / size_of::<PeekTok>()` = (4096 - 16) / 24 = 170 on a
64-bit target.  The source itself notes the exact value does not
matter; every positive value yields the same observable token stream. -/
def PEEK_CACHE_SIZE : Nat := 170

/-- The pull loop of `bump_batched`: up to `fuel` tokens are pulled
from the inner lexer, each reclassified; the loop stops early at end of
input.  Returns the pulled tokens in scan order together with the
remaining input.  (The Rust code pushes onto a `Vec` and reverses it
once so that `Vec::pop` — the list HEAD here — yields scan order.) -/
def bumpBatched : Nat → List Char → Res (List (Token × List Char) × List Char)
  | 0, cs => Res.ok ([], cs)
  | fuel + 1, cs =>
    match nextToken cs with
    | ScanResult.eof => Res.ok ([], cs)
    | ScanResult.panic => Res.panic
    | ScanResult.tok t text rest =>
      match bumpBatched fuel rest with
      | Res.panic => Res.panic
      | Res.ok (ts, r) => Res.ok (reclassify t text :: ts, r)

/-- The lookahead engine of the source (`struct Lexer`): the current
peeked token, the peek cache (head = next token to pop), and the inner
lexer's remaining input. -/
structure Lexer where
  peeked : Option (Token × List Char)
  peek_cache : List (Token × List Char)
  rest : List Char
  deriving DecidableEq

/-- The private `next` method: pop the cache into the peeked slot,
refilling the cache through `bump_batched` when it is empty; if the
refill produces nothing the peeked slot becomes `none`. -/
def Lexer.next (l : Lexer) : Res Lexer :=
  match l.peek_cache with
  | p :: ps => Res.ok { l with peeked := some p, peek_cache := ps }
  | [] =>
    match bumpBatched PEEK_CACHE_SIZE l.rest with
    | Res.panic => Res.panic
    | Res.ok (ts, r) =>
      match ts with
      | [] => Res.ok { peeked := none, peek_cache := [], rest := r }
      | p :: ps => Res.ok { peeked := some p, peek_cache := ps, rest := r }

/-- `Lexer::new`: start with an empty cache over the whole input and
prime the peeked slot with one `next`. -/
def Lexer.new (input : List Char) : Res Lexer :=
  Lexer.next { peeked := none, peek_cache := [], rest := input }

/-- `Lexer::peek`: the kind of the current token. -/
def Lexer.peek (l : Lexer) : Option Token :=
  l.peeked.map (fun p => p.1)

/-- `Lexer::peek_text`: the text slice of the current token. -/
def Lexer.peek_text (l : Lexer) : Option (List Char) :=
  l.peeked.map (fun p => p.2)

/-- `Lexer::peek_char`: the first character of the current token's
text. -/
def Lexer.peek_char (l : Lexer) : Option Char :=
  (Lexer.peek_text l).bind List.head?

/-- `Lexer::consume_word`: with no current token, do nothing; when the
current text has at most `cnt` bytes, advance to the next token;
otherwise replace the text by `&text[cnt..]` (drop `cnt` bytes),
panicking when `cnt` is not a character boundary.  The token kind is
left unchanged. -/
def Lexer.consume_word (l : Lexer) (cnt : Nat) : Res Lexer :=
  match l.peeked with
  | none => Res.ok l
  | some (k, t) =>
    if byteLen t ≤ cnt then Lexer.next l
    else
      match splitAtBytes cnt t with
      | Res.panic => Res.panic
      | Res.ok (_, t') => Res.ok { l with peeked := some (k, t') }

/-- `Lexer::eat`: return the current token (paired with its text) and
advance; `none` at end of input with the lexer unchanged.  The Rust
code maps the kind through `Into<SyntaxKind>`, a one-to-one relabelling
defined outside this source file; the embedding keeps the `Token`. -/
def Lexer.eat (l : Lexer) : Res (Option ((Token × List Char) × Lexer)) :=
  match l.peeked with
  | none => Res.ok none
  | some p =>
    match Lexer.next l with
    | Res.panic => Res.panic
    | Res.ok l' => Res.ok (some (p, l'))

/-- Draining loop: call `eat` until it returns `none` (at most `fuel`
times).  `Res.ok none` means the fuel ran out before `eat` did;
`Res.ok (some (ts, lf))` collects the eaten tokens and the final lexer
on which `eat` returned `none`. -/
def eats : Nat → Lexer → Res (Option (List (Token × List Char) × Lexer))
  | 0, _ => Res.ok none
  | fuel + 1, l =>
    match Lexer.eat l with
    | Res.panic => Res.panic
    | Res.ok none => Res.ok (some ([], l))
    | Res.ok (some (p, l')) =>
      match eats fuel l' with
      | Res.panic => Res.panic
      | Res.ok none => Res.ok none
      | Res.ok (some (ts, lf)) => Res.ok (some (p :: ts, lf))

/-- Construct the lexer and drain it: the full observable token stream
of an input (with fuel for the drain). -/
def lexDrain (fuel : Nat) (input : List Char) : Res (Option (List (Token × List Char))) :=
  match Lexer.new input with
  | Res.panic => Res.panic
  | Res.ok l =>
    match eats fuel l with
    | Res.panic => Res.panic
    | Res.ok none => Res.ok none
    | Res.ok (some (ts, _)) => Res.ok (some ts)

/-- Total wrapper around `Lexer.new` for stating concrete examples on
inputs whose construction does not panic (the accompanying theorems
always record `Lexer.new input = Res.ok (newD input)` separately). -/
def newD (input : List Char) : Lexer :=
  match Lexer.new input with
  | Res.ok l => l
  | Res.panic => { peeked := none, peek_cache := [], rest := [] }

/-- Text of the peeked token (empty when none). -/
def peekedText (l : Lexer) : List Char :=
  match l.peeked with
  | some p => p.2
  | none => []

/-- Concatenated text of the peek cache. -/
def cacheText (l : Lexer) : List Char :=
  (l.peek_cache.map (fun p => p.2)).flatten

/-- All input characters not yet served by `eat`: the peeked token, the
cache, then the inner lexer's remaining input. -/
def remaining (l : Lexer) : List Char :=
  peekedText l ++ cacheText l ++ l.rest

/-- Well-formedness of a lexer state, established by `new` and
preserved by `eat` and (panic-free) `consume_word`: every buffered text
slice is non-empty, and an empty peeked slot only occurs with an empty
cache and exhausted input. -/
def WF (l : Lexer) : Prop :=
  l.peek_cache.all (fun p => !p.2.isEmpty) = true ∧
  l.peeked.all (fun p => !p.2.isEmpty) = true ∧
  (l.peeked = none → l.peek_cache = [] ∧ l.rest = [])

/-- A buffered token is classified: a `CommandName` kind agrees with
`classify` of its text without the leading backslash. -/
def classifiedB (p : Token × List Char) : Bool :=
  match p.1 with
  | Token.CommandName k => decide (k = classify (p.2.drop 1))
  | _ => true

/-- Classification invariant: established by `new` and preserved by
`eat` (not by `consume_word`, which deliberately trims text without
reclassifying). -/
def CInv (l : Lexer) : Prop :=
  l.peek_cache.all classifiedB = true ∧ l.peeked.all classifiedB = true

/-- Splitting a run off the front of a list restores the list. -/
theorem cons_takeWhile_dropWhile (p : Char → Bool) (c : Char) (cs : List Char) :
    (c :: cs.takeWhile p) ++ cs.dropWhile p = c :: cs := by
  rw [List.cons_append, List.takeWhile_append_dropWhile]

/-- A successful byte split partitions the list and takes exactly `n`
bytes. -/
theorem splitAtBytes_sound (cs : List Char) :
    ∀ n a b, splitAtBytes n cs = Res.ok (a, b) → a ++ b = cs ∧ byteLen a = n := by
  induction cs with
  | nil =>
    intro n a b h
    match n with
    | 0 =>
      simp only [splitAtBytes] at h
      cases h
      exact ⟨rfl, rfl⟩
    | _ + 1 => exact Res.noConfusion h
  | cons c cs ih =>
    intro n a b h
    match n with
    | 0 =>
      simp only [splitAtBytes] at h
      cases h
      exact ⟨rfl, rfl⟩
    | m + 1 =>
      simp only [splitAtBytes] at h
      split at h
      · rename_i hsize
        cases heq : splitAtBytes (m + 1 - c.utf8Size) cs with
        | panic =>
          simp only [heq] at h
          exact Res.noConfusion h
        | ok ab =>
          obtain ⟨a', b'⟩ := ab
          simp only [heq] at h
          cases h
          obtain ⟨h1, h2⟩ := ih _ _ _ heq
          refine ⟨by rw [List.cons_append, h1], ?_⟩
          simp only [byteLen, h2]
          omega
      · exact Res.noConfusion h

/-- The command-name scanner, on success, returns a non-empty slice
beginning with the backslash that partitions the input, and always
reports the `Generic` kind. -/
theorem scanCommandName_sound (cs : List Char) (t : Token) (text rest : List Char)
    (h : scanCommandName cs = ScanResult.tok t text rest) :
    text ++ rest = '\\' :: cs ∧ text ≠ [] ∧ t = Token.CommandName CommandName.Generic := by
  match cs with
  | [] =>
    simp only [scanCommandName] at h
    cases h
    exact ⟨rfl, by simp, rfl⟩
  | c :: cs' =>
    simp only [scanCommandName] at h
    split at h
    · cases h
      exact ⟨rfl, by simp, rfl⟩
    · cases heq : splitAtBytes
          (c.utf8Size +
            (if !(isRustAlphanumeric c || c == '@') then 0 else nameTailBytes cs'))
          (c :: cs') with
      | panic =>
        simp only [heq] at h
        exact ScanResult.noConfusion h
      | ok ab =>
        obtain ⟨name, rest'⟩ := ab
        simp only [heq] at h
        cases h
        obtain ⟨h1, _⟩ := splitAtBytes_sound _ _ _ _ heq
        exact ⟨by rw [List.cons_append, h1], by simp, rfl⟩

/-- The command-name scanner never reports end of input. -/
theorem scanCommandName_ne_eof (cs : List Char) :
    scanCommandName cs ≠ ScanResult.eof := by
  intro h
  match cs with
  | [] => exact ScanResult.noConfusion h
  | c :: cs' =>
    simp only [scanCommandName] at h
    split at h
    · exact ScanResult.noConfusion h
    · split at h
      · exact ScanResult.noConfusion h
      · exact ScanResult.noConfusion h

/-- A single-character rule never yields a `CommandName` token. -/
theorem simpleToken_not_command (c : Char) (t : Token) (h : simpleToken c = some t) :
    ∀ k, t = Token.CommandName k → k = CommandName.Generic := by
  simp only [simpleToken, Option.map_eq_some'] at h
  obtain ⟨p, hfind, hp⟩ := h
  have hmem : p ∈ simpleTable := List.mem_of_find?_eq_some hfind
  subst hp
  have : ∀ q ∈ simpleTable, ∀ k, q.2 ≠ Token.CommandName k := by
    intro q hq
    fin_cases hq <;> exact fun k hk => Token.noConfusion hk
  exact fun k hk => absurd hk (this p hmem k)

/-- Every token produced by one classifier step is a non-empty slice
that partitions the input, and a `CommandName` token always carries the
raw `Generic` kind (specialisation happens only in `bump_batched`). -/
theorem nextToken_sound (cs : List Char) (t : Token) (text rest : List Char)
    (h : nextToken cs = ScanResult.tok t text rest) :
    text ++ rest = cs ∧ text ≠ [] ∧
      (∀ k, t = Token.CommandName k → k = CommandName.Generic) := by
  match cs with
  | [] => exact ScanResult.noConfusion h
  | c :: cs' =>
    simp only [nextToken] at h
    repeat' split at h
    all_goals try
      (obtain ⟨h1, h2, h3⟩ := scanCommandName_sound _ _ _ _ h
       subst h3
       refine ⟨?_, h2, fun k hk => by injection hk with hh; exact hh.symm⟩
       simp_all)
    all_goals try
      (rename_i tS heqS
       cases h
       exact ⟨rfl, by simp, fun k hk => simpleToken_not_command _ _ (hk ▸ heqS) k rfl⟩)
    all_goals
      (cases h
       refine ⟨?_, by simp, fun k hk => Token.noConfusion hk⟩
       first
         | rfl
         | exact cons_takeWhile_dropWhile _ _ _)

/-- The classifier reports end of input only on the empty input. -/
theorem nextToken_eof (cs : List Char) (h : nextToken cs = ScanResult.eof) :
    cs = [] := by
  match cs with
  | [] => rfl
  | c :: cs' =>
    simp only [nextToken] at h
    repeat' split at h
    all_goals first
      | exact absurd h (scanCommandName_ne_eof _)
      | exact ScanResult.noConfusion h

/-! ## Batching and engine invariants -/

/-- Reclassification does not touch the text slice. -/
theorem reclassify_snd (t : Token) (text : List Char) :
    (reclassify t text).2 = text := by
  unfold reclassify
  split <;> rfl

/-- Reclassifying a raw token (whose `CommandName` payload can only be
`Generic`) yields a classified buffered token. -/
theorem reclassify_classified (t : Token) (text : List Char)
    (hg : ∀ k, t = Token.CommandName k → k = CommandName.Generic) :
    classifiedB (reclassify t text) = true := by
  unfold reclassify
  split
  · simp [classifiedB]
  · rename_i hne
    unfold classifiedB
    cases t
    case CommandName k =>
      exact absurd (congrArg Token.CommandName (hg k rfl)) hne
    all_goals rfl

/-- A successful refill pulls a prefix of the input: the pulled texts
concatenate (in order) with the leftover input to the original input,
every pulled text is non-empty and classified, and an empty pull means
the fuel was zero or the input was exhausted (and then nothing moved). -/
theorem bumpBatched_sound (fuel : Nat) :
    ∀ cs ts r, bumpBatched fuel cs = Res.ok (ts, r) →
      (ts.map (fun p => p.2)).flatten ++ r = cs ∧
      (∀ p ∈ ts, p.2 ≠ []) ∧
      (∀ p ∈ ts, classifiedB p = true) ∧
      (ts = [] → r = cs ∧ (fuel = 0 ∨ cs = [])) := by
  induction fuel with
  | zero =>
    intro cs ts r h
    simp only [bumpBatched] at h
    cases h
    exact ⟨rfl, by simp, by simp, fun _ => ⟨rfl, Or.inl rfl⟩⟩
  | succ fuel ih =>
    intro cs ts r h
    simp only [bumpBatched] at h
    cases hn : nextToken cs with
    | eof =>
      simp only [hn] at h
      cases h
      exact ⟨rfl, by simp, by simp, fun _ => ⟨rfl, Or.inr (nextToken_eof _ hn)⟩⟩
    | panic =>
      simp only [hn] at h
      exact Res.noConfusion h
    | tok t text rest =>
      simp only [hn] at h
      cases hb : bumpBatched fuel rest with
      | panic =>
        simp only [hb] at h
        exact Res.noConfusion h
      | ok tr =>
        obtain ⟨ts', r'⟩ := tr
        simp only [hb] at h
        cases h
        obtain ⟨hs1, hs2, hs3⟩ := nextToken_sound _ _ _ _ hn
        obtain ⟨hb1, hb2, hb3, _⟩ := ih _ _ _ hb
        refine ⟨?_, ?_, ?_, by simp⟩
        · simp only [List.map_cons, List.flatten_cons, reclassify_snd]
          rw [List.append_assoc, hb1, hs1]
        · intro p hp
          rcases List.mem_cons.mp hp with hpe | hpm
          · rw [hpe, reclassify_snd]
            exact hs2
          · exact hb2 p hpm
        · intro p hp
          rcases List.mem_cons.mp hp with hpe | hpm
          · rw [hpe]
            exact reclassify_classified _ _ hs3
          · exact hb3 p hpm

/-- One advance: the new state covers exactly the cache and inner input
of the old one, and both invariants come along. -/
theorem next_spec (l l' : Lexer) (h : Lexer.next l = Res.ok l') :
    remaining l' = cacheText l ++ l.rest ∧
    (l.peek_cache.all (fun p => !p.2.isEmpty) = true → WF l') ∧
    (l.peek_cache.all classifiedB = true →
      l'.peek_cache.all classifiedB = true ∧ l'.peeked.all classifiedB = true) := by
  unfold Lexer.next at h
  cases hc : l.peek_cache with
  | cons p ps =>
    simp only [hc] at h
    cases h
    refine ⟨?_, ?_, ?_⟩
    · unfold remaining peekedText cacheText
      simp [hc]
    · intro hall
      simp only [List.all_cons, Bool.and_eq_true] at hall
      exact ⟨hall.2, by simpa using hall.1, fun hno => Option.noConfusion hno⟩
    · intro hall
      simp only [List.all_cons, Bool.and_eq_true] at hall
      exact ⟨hall.2, by simpa using hall.1⟩
  | nil =>
    simp only [hc] at h
    cases hb : bumpBatched PEEK_CACHE_SIZE l.rest with
    | panic =>
      simp only [hb] at h
      exact Res.noConfusion h
    | ok tr =>
      obtain ⟨ts, r⟩ := tr
      simp only [hb] at h
      obtain ⟨hb1, hb2, hb3, hb4⟩ := bumpBatched_sound _ _ _ _ hb
      cases ts with
      | nil =>
        cases h
        obtain ⟨hr, hfz⟩ := hb4 rfl
        have hrest : l.rest = [] := by
          rcases hfz with hfz | hfz
          · exact absurd hfz (by unfold PEEK_CACHE_SIZE; omega)
          · exact hfz
        subst hr
        refine ⟨?_, ?_, ?_⟩
        · unfold remaining peekedText cacheText
          simp [hrest, cacheText, hc]
        · intro _
          exact ⟨rfl, rfl, fun _ => ⟨rfl, hrest⟩⟩
        · intro _
          exact ⟨rfl, rfl⟩
      | cons p ps =>
        cases h
        refine ⟨?_, ?_, ?_⟩
        · unfold remaining peekedText cacheText
          rw [hc]
          simpa using hb1
        · intro _
          refine ⟨?_, ?_, fun hno => Option.noConfusion hno⟩
          · simp only [List.all_eq_true]
            intro q hq
            simpa using hb2 q (List.mem_cons_of_mem _ hq)
          · simpa using hb2 p (List.mem_cons_self _ _)
        · intro _
          refine ⟨?_, ?_⟩
          · simp only [List.all_eq_true]
            intro q hq
            exact hb3 q (List.mem_cons_of_mem _ hq)
          · simpa using hb3 p (List.mem_cons_self _ _)

/-- A freshly constructed lexer covers exactly the input and satisfies
both invariants. -/
theorem new_spec (input : List Char) (l : Lexer) (h : Lexer.new input = Res.ok l) :
    remaining l = input ∧ WF l ∧ CInv l := by
  obtain ⟨h1, h2, h3⟩ := next_spec _ _ h
  refine ⟨by rw [h1]; rfl, h2 rfl, (h3 rfl).1, (h3 rfl).2⟩

/-- With no current token, `eat` returns `none`. -/
theorem eat_none (l : Lexer) (h : l.peeked = none) : Lexer.eat l = Res.ok none := by
  simp only [Lexer.eat, h]

/-- Conversely, `eat` returns `none` only with no current token. -/
theorem eat_none_inv (l : Lexer) (h : Lexer.eat l = Res.ok none) : l.peeked = none := by
  unfold Lexer.eat at h
  cases hp : l.peeked with
  | none => rfl
  | some p =>
    simp only [hp] at h
    cases hn : Lexer.next l with
    | panic =>
      simp only [hn] at h
      exact Res.noConfusion h
    | ok l' =>
      simp only [hn] at h
      exact Option.noConfusion (Res.ok.inj h)

/-- A successful `eat` serves exactly the peeked token and advances. -/
theorem eat_some_spec (l : Lexer) (p : Token × List Char) (l' : Lexer)
    (h : Lexer.eat l = Res.ok (some (p, l'))) :
    l.peeked = some p ∧ Lexer.next l = Res.ok l' := by
  unfold Lexer.eat at h
  cases hp : l.peeked with
  | none =>
    simp only [hp] at h
    exact Option.noConfusion (Res.ok.inj h)
  | some q =>
    simp only [hp] at h
    cases hn : Lexer.next l with
    | panic =>
      simp only [hn] at h
      exact Res.noConfusion h
    | ok l'' =>
      simp only [hn] at h
      obtain ⟨hq, hl⟩ := Prod.mk.inj (Option.some.inj (Res.ok.inj h))
      exact ⟨by rw [hq], by rw [hl]⟩

/-- One drain step: the served text is non-empty, accounting of the
uncovered input works out, and the invariants are preserved. -/
theorem eat_step (l : Lexer) (p : Token × List Char) (l' : Lexer)
    (hwf : WF l) (h : Lexer.eat l = Res.ok (some (p, l'))) :
    p.2 ≠ [] ∧ remaining l = p.2 ++ remaining l' ∧ WF l' ∧
      (CInv l → CInv l' ∧ classifiedB p = true) := by
  obtain ⟨hp, hn⟩ := eat_some_spec _ _ _ h
  obtain ⟨h1, h2, h3⟩ := next_spec _ _ hn
  obtain ⟨hwc, hwp, hwn⟩ := hwf
  refine ⟨?_, ?_, h2 hwc, ?_⟩
  · rw [hp] at hwp
    simpa using hwp
  · rw [h1]
    unfold remaining peekedText
    rw [hp]
    simp [List.append_assoc]
  · intro hcinv
    obtain ⟨hcc, hcp⟩ := hcinv
    refine ⟨⟨(h3 hcc).1, (h3 hcc).2⟩, ?_⟩
    rw [hp] at hcp
    simpa using hcp

/-- Soundness of a completed drain: the texts concatenate to exactly
the uncovered input, the final state is exhausted, the number of tokens
is bounded by the input length, and every served token is classified. -/
theorem eats_sound (fuel : Nat) :
    ∀ l ts lf, WF l → eats fuel l = Res.ok (some (ts, lf)) →
      (ts.map (fun p => p.2)).flatten = remaining l ∧
      WF lf ∧ lf.peeked = none ∧ ts.length ≤ (remaining l).length ∧
      (CInv l → ∀ p ∈ ts, classifiedB p = true) := by
  induction fuel with
  | zero =>
    intro l ts lf hwf h
    exact Option.noConfusion (Res.ok.inj h)
  | succ fuel ih =>
    intro l ts lf hwf h
    simp only [eats] at h
    cases he : Lexer.eat l with
    | panic =>
      simp only [he] at h
      exact Res.noConfusion h
    | ok o =>
      simp only [he] at h
      cases o with
      | none =>
        obtain ⟨hts, hlf⟩ := Prod.mk.inj (Option.some.inj (Res.ok.inj h))
        subst hts
        rw [← hlf]
        have hpn := eat_none_inv _ he
        have hw3 := hwf.2.2
        obtain ⟨hcnil, hrnil⟩ := hw3 hpn
        have hrem : remaining l = [] := by
          unfold remaining peekedText cacheText
          rw [hpn, hcnil, hrnil]
          rfl
        exact ⟨by rw [hrem]; rfl, hwf, hpn, by simp [hrem], fun _ => by simp⟩
      | some pl =>
        obtain ⟨p, l'⟩ := pl
        cases hs : eats fuel l' with
        | panic =>
          simp only [hs] at h
          exact Res.noConfusion h
        | ok o2 =>
          simp only [hs] at h
          cases o2 with
          | none => exact Option.noConfusion (Res.ok.inj h)
          | some tsf =>
            obtain ⟨ts', lf'⟩ := tsf
            cases Option.some.inj (Res.ok.inj h)
            obtain ⟨hne, hrem, hwf', hcl⟩ := eat_step _ _ _ hwf he
            obtain ⟨ih1, ih2, ih3, ih4, ih5⟩ := ih _ _ _ hwf' hs
            refine ⟨?_, ih2, ih3, ?_, ?_⟩
            · simp only [List.map_cons, List.flatten_cons, ih1, hrem]
            · rw [hrem]
              simp only [List.length_cons, List.length_append]
              have hlen1 : 0 < p.2.length := List.length_pos.mpr hne
              omega
            · intro hcinv p' hp'
              obtain ⟨hcinv', hclp⟩ := hcl hcinv
              rcases List.mem_cons.mp hp' with hpe | hpm
              · rw [hpe]
                exact hclp
              · exact ih5 hcinv' p' hpm

/-- Adequacy of the drain: with fuel exceeding the uncovered input
length, a panic-free drain completes. -/
theorem eats_adequate (fuel : Nat) :
    ∀ l, WF l → (remaining l).length < fuel → eats fuel l ≠ Res.panic →
      ∃ ts lf, eats fuel l = Res.ok (some (ts, lf)) := by
  induction fuel with
  | zero =>
    intro l _ hlen _
    exact absurd hlen (Nat.not_lt_zero _)
  | succ fuel ih =>
    intro l hwf hlen hnp
    simp only [eats] at hnp ⊢
    cases he : Lexer.eat l with
    | panic =>
      rw [he] at hnp
      exact absurd rfl hnp
    | ok o =>
      simp only [he] at hnp ⊢
      cases o with
      | none => exact ⟨[], l, rfl⟩
      | some pl =>
        obtain ⟨p, l'⟩ := pl
        obtain ⟨hne, hrem, hwf', _⟩ := eat_step _ _ _ hwf he
        have hlt : (remaining l').length < fuel := by
          rw [hrem] at hlen
          simp only [List.length_append] at hlen
          have hlen1 : 0 < p.2.length := List.length_pos.mpr hne
          omega
        have hnp' : eats fuel l' ≠ Res.panic := by
          intro hcon
          simp only [hcon] at hnp
          exact hnp rfl
        obtain ⟨ts, lf, hts⟩ := ih l' hwf' hlt hnp'
        simp only [hts]
        exact ⟨p :: ts, lf, rfl⟩

/-! ## Byte arithmetic and `consume_word` -/

/-- Byte length distributes over concatenation. -/
theorem byteLen_append (a b : List Char) :
    byteLen (a ++ b) = byteLen a + byteLen b := by
  induction a with
  | nil => simp [byteLen]
  | cons c a ih =>
    show c.utf8Size + byteLen (a ++ b) = c.utf8Size + byteLen a + byteLen b
    rw [ih]
    omega

/-- Only the empty list has byte length zero. -/
theorem byteLen_eq_zero (b : List Char) (h : byteLen b = 0) : b = [] := by
  cases b with
  | nil => rfl
  | cons c cs =>
    have := Char.utf8Size_pos c
    simp only [byteLen] at h
    omega

/-- `consume_word` preserves well-formedness whenever it does not
panic. -/
theorem consume_word_wf (l : Lexer) (n : Nat) (l' : Lexer)
    (hwf : WF l) (h : Lexer.consume_word l n = Res.ok l') : WF l' := by
  simp only [Lexer.consume_word] at h
  cases hp : l.peeked with
  | none =>
    simp only [hp] at h
    cases h
    exact hwf
  | some p =>
    obtain ⟨k, t⟩ := p
    simp only [hp] at h
    split at h
    · exact (next_spec _ _ h).2.1 hwf.1
    · rename_i hgt
      cases hsp : splitAtBytes n t with
      | panic =>
        simp only [hsp] at h
        exact Res.noConfusion h
      | ok ab =>
        obtain ⟨pre, t'⟩ := ab
        simp only [hsp] at h
        cases h
        obtain ⟨hsplit, hblen⟩ := splitAtBytes_sound _ _ _ _ hsp
        have hbl : byteLen t = byteLen pre + byteLen t' := by
          rw [← byteLen_append, hsplit]
        have hne : t' ≠ [] := by
          intro hnil
          rw [hnil] at hbl
          simp only [byteLen] at hbl
          omega
        refine ⟨hwf.1, by simpa using hne, fun hno => Option.noConfusion hno⟩

/-! ## Claim theorems -/

/-- C1 counterexample: the claim quantifies over every input string,
but on the input backslash-a-e-acute the very construction of the lexer
(which performs the first batched advance) panics — the command-name
scan bumps one byte for the two-byte alphanumeric character, leaving
the span mid-character — so no drain exists whose texts concatenate to
this input, and the drain itself (at the claim's own fuel bound,
input length + 1) panics rather than producing a token list. -/
theorem C1_counterexample :
    Lexer.new ['\\', 'a', 'é'] = Res.panic ∧
    lexDrain 4 ['\\', 'a', 'é'] = Res.panic := by
  constructor
  · decide
  · decide

/-- C1 (amended): for every input string on which lexing does not panic
— formally, whenever construction succeeds and draining through
repeated `eat` completes — concatenating, in original order, the text
slices of all drained tokens reproduces the input string exactly (so
every character of the input belongs to exactly one token). -/
theorem C1_lossless_amended (input : List Char) (l : Lexer) (fuel : Nat)
    (ts : List (Token × List Char)) (lf : Lexer)
    (hnew : Lexer.new input = Res.ok l)
    (hdrain : eats fuel l = Res.ok (some (ts, lf))) :
    (ts.map (fun p => p.2)).flatten = input := by
  obtain ⟨hrem, hwf, _⟩ := new_spec _ _ hnew
  obtain ⟨h1, _⟩ := eats_sound _ _ _ _ hwf hdrain
  rw [h1, hrem]

/-- C1 witness: the drain of a small concrete input, with its
concatenation evaluated. -/
theorem C1_lossless_amended_witness :
    Lexer.new ['a', '_', 'b'] = Res.ok (newD ['a', '_', 'b']) ∧
    eats 4 (newD ['a', '_', 'b']) =
      Res.ok (some ([(Token.Word, ['a']), (Token.Underline, ['_']), (Token.Word, ['b'])],
        { peeked := none, peek_cache := [], rest := [] })) ∧
    ([(Token.Word, ['a']), (Token.Underline, ['_']),
      (Token.Word, ['b'])].map (fun p => p.2)).flatten = ['a', '_', 'b'] :=
  ⟨by decide, by decide,
    C1_lossless_amended ['a', '_', 'b'] (newD ['a', '_', 'b']) 4
      [(Token.Word, ['a']), (Token.Underline, ['_']), (Token.Word, ['b'])]
      { peeked := none, peek_cache := [], rest := [] } (by decide) (by decide)⟩

/-- C2: evaluation of the code at the failing inputs.  `consume_word 1`
on the single-token input e-acute (a one-character, two-byte `Word`)
slices the text at byte offset 1, which is not a character boundary —
Rust `str` indexing panics.  Likewise `Lexer::new` on
backslash-a-e-acute panics during the first refill (command-name scan
misaligned by a multi-byte alphanumeric).  Both contradict the claim
that no public operation can fail or panic. -/
theorem C2_panic_eval :
    (newD ['é']).peeked = some (Token.Word, ['é']) ∧
    Lexer.consume_word (newD ['é']) 1 = Res.panic ∧
    Lexer.new ['\\', 'a', 'é'] = Res.panic := by
  refine ⟨by decide, by decide, by decide⟩

/-- C3 counterexample: with current token `Word` of text e-acute-x (two
characters, three bytes) and `n = 2`, the claim (lengths in characters)
says the lexer advances past the token entirely, leaving no current
token; the code compares and slices bytes, so it instead keeps a
current `Word` token with text `x`. -/
theorem C3_counterexample :
    Lexer.new ['é', 'x'] = Res.ok (newD ['é', 'x']) ∧
    (newD ['é', 'x']).peeked = some (Token.Word, ['é', 'x']) ∧
    List.length ['é', 'x'] ≤ 2 ∧
    Lexer.consume_word (newD ['é', 'x']) 2 =
      Res.ok { peeked := some (Token.Word, ['x']), peek_cache := [], rest := [] } ∧
    Lexer.peek { peeked := some (Token.Word, ['x']), peek_cache := [], rest := [] } ≠
      none := by
  refine ⟨by decide, by decide, by decide, by decide, by decide⟩

/-- C3 (amended): lengths are counted in UTF-8 bytes, not characters.
For every current token `(k, t)` and every `n`: if `t` has at most `n`
bytes, `consume_word n` advances to the next token entirely; if `t` has
more than `n` bytes and `n` is a character boundary of `t` (the split
succeeds), `consume_word n` removes exactly the first `n` bytes of `t`
in place, leaving the kind `k` unchanged and the current text equal to
the remainder. -/
theorem C3_consume_word_bytes (l : Lexer) (k : Token) (t : List Char) (n : Nat)
    (hp : l.peeked = some (k, t)) :
    (byteLen t ≤ n → Lexer.consume_word l n = Lexer.next l) ∧
    (∀ pre t', n < byteLen t → splitAtBytes n t = Res.ok (pre, t') →
      Lexer.consume_word l n = Res.ok { l with peeked := some (k, t') } ∧
      pre ++ t' = t ∧ byteLen pre = n) := by
  constructor
  · intro hle
    simp only [Lexer.consume_word, hp]
    rw [if_pos hle]
  · intro pre t' hgt hsp
    obtain ⟨hsplit, hblen⟩ := splitAtBytes_sound _ _ _ _ hsp
    refine ⟨?_, hsplit, hblen⟩
    simp only [Lexer.consume_word, hp]
    rw [if_neg (by omega)]
    simp only [hsp]

/-- C3 witness: the spec's own example on `Word` text `abc`:
`consume_word 1` trims to `bc` in place keeping the `Word` kind,
`consume_word 5` advances past the token entirely. -/
theorem C3_consume_word_bytes_witness :
    (newD ['a', 'b', 'c']).peeked = some (Token.Word, ['a', 'b', 'c']) ∧
    Lexer.consume_word (newD ['a', 'b', 'c']) 1 =
      Res.ok { newD ['a', 'b', 'c'] with peeked := some (Token.Word, ['b', 'c']) } ∧
    Lexer.consume_word (newD ['a', 'b', 'c']) 5 = Lexer.next (newD ['a', 'b', 'c']) :=
  ⟨by decide,
   ((C3_consume_word_bytes (newD ['a', 'b', 'c']) Token.Word ['a', 'b', 'c'] 1
      (by decide)).2 ['a'] ['b', 'c'] (by decide) (by decide)).1,
   (C3_consume_word_bytes (newD ['a', 'b', 'c']) Token.Word ['a', 'b', 'c'] 5
      (by decide)).1 (by decide)⟩

/-- C6: an input of exactly two backslashes is tokenized as one
`NewLine` token covering both characters (the two-byte
double-backslash rule beats the one-byte command-name rule), not as
two `CommandName` tokens; the drain then ends. -/
theorem C6_double_backslash :
    lexDrain 3 ['\\', '\\'] = Res.ok (some [(Token.NewLine, ['\\', '\\'])]) := by
  decide

/-- C7: the input `a_b^c` is tokenized, in order, as `Word` `a`,
`Underline` `_`, `Word` `b`, `Caret` `^`, `Word` `c`: the underscore
beats the word rule and the caret is excluded from word runs. -/
theorem C7_priority_tokens :
    lexDrain 6 ['a', '_', 'b', '^', 'c'] =
      Res.ok (some [(Token.Word, ['a']), (Token.Underline, ['_']), (Token.Word, ['b']),
        (Token.Caret, ['^']), (Token.Word, ['c'])]) := by
  decide

/-- C4: command classification is a pure function of the name with the
leading backslash stripped: the six special names map to their kinds,
every other name (including the empty one) maps to `Generic`, and the
raw `Generic` command kind is replaced by this classification before
any consumer observes the token — both the peeked token of a fresh
lexer and every token obtained by draining agree with `classify` of
their text without the backslash. -/
theorem C4_classify_spec :
    classify ['b', 'e', 'g', 'i', 'n'] = CommandName.BeginEnvironment ∧
    classify ['e', 'n', 'd'] = CommandName.EndEnvironment ∧
    classify ['i', 'f', 'f', 'a', 'l', 's', 'e'] = CommandName.BeginBlockComment ∧
    classify ['f', 'i'] = CommandName.EndBlockComment ∧
    classify ['l', 'e', 'f', 't'] = CommandName.Left ∧
    classify ['r', 'i', 'g', 'h', 't'] = CommandName.Right ∧
    classify [] = CommandName.Generic ∧
    (∀ s : List Char, s ≠ ['b', 'e', 'g', 'i', 'n'] → s ≠ ['e', 'n', 'd'] →
      s ≠ ['i', 'f', 'f', 'a', 'l', 's', 'e'] → s ≠ ['f', 'i'] →
      s ≠ ['l', 'e', 'f', 't'] → s ≠ ['r', 'i', 'g', 'h', 't'] →
      classify s = CommandName.Generic) ∧
    (∀ input l, Lexer.new input = Res.ok l →
      ∀ k t, l.peeked = some (Token.CommandName k, t) → k = classify (t.drop 1)) ∧
    (∀ input l fuel ts lf, Lexer.new input = Res.ok l →
      eats fuel l = Res.ok (some (ts, lf)) →
      ∀ k t, (Token.CommandName k, t) ∈ ts → k = classify (t.drop 1)) := by
  refine ⟨by decide, by decide, by decide, by decide, by decide, by decide, by decide,
    ?_, ?_, ?_⟩
  · intro s h1 h2 h3 h4 h5 h6
    unfold classify
    rw [if_neg h1, if_neg h2, if_neg h3, if_neg h4, if_neg h5, if_neg h6]
  · intro input l hnew k t hpk
    obtain ⟨_, _, hcinv⟩ := new_spec _ _ hnew
    have hall := hcinv.2
    rw [hpk] at hall
    simp only [Option.all, classifiedB] at hall
    exact of_decide_eq_true hall
  · intro input l fuel ts lf hnew hdrain k t hmem
    obtain ⟨_, hwf, hcinv⟩ := new_spec _ _ hnew
    obtain ⟨_, _, _, _, hcl⟩ := eats_sound _ _ _ _ hwf hdrain
    have hone := hcl hcinv (Token.CommandName k, t) hmem
    simp only [classifiedB] at hone
    exact of_decide_eq_true hone

/-- C4 witness: an unlisted name classifies as `Generic`, and the
drained begin-token of a concrete input carries the classification of
its stripped text. -/
theorem C4_classify_spec_witness :
    classify ['q', 'u', 'a', 'd'] = CommandName.Generic ∧
    CommandName.BeginEnvironment =
      classify ((['\\', 'b', 'e', 'g', 'i', 'n'] : List Char).drop 1) :=
  ⟨C4_classify_spec.2.2.2.2.2.2.2.1 ['q', 'u', 'a', 'd'] (by decide) (by decide)
      (by decide) (by decide) (by decide) (by decide),
   C4_classify_spec.2.2.2.2.2.2.2.2.2 ['\\', 'b', 'e', 'g', 'i', 'n']
      (newD ['\\', 'b', 'e', 'g', 'i', 'n']) 2
      [(Token.CommandName CommandName.BeginEnvironment, ['\\', 'b', 'e', 'g', 'i', 'n'])]
      { peeked := none, peek_cache := [], rest := [] } (by decide) (by decide)
      CommandName.BeginEnvironment ['\\', 'b', 'e', 'g', 'i', 'n'] (by decide)⟩

/-- C8: malformed backslash constructs degrade into tokens rather than
errors: a lone trailing backslash yields one `CommandName(Generic)`
token whose text is exactly the backslash, after which `eat` and `peek`
report none; and a backslash followed by any whitespace character
yields a `CommandName(Generic)` token with just the backslash as text,
the whitespace not being part of the name. -/
theorem C8_degenerate_backslash :
    lexDrain 2 ['\\'] =
      Res.ok (some [(Token.CommandName CommandName.Generic, ['\\'])]) ∧
    (newD ['\\']).peeked = some (Token.CommandName CommandName.Generic, ['\\']) ∧
    Lexer.eat (newD ['\\']) =
      Res.ok (some ((Token.CommandName CommandName.Generic, ['\\']),
        { peeked := none, peek_cache := [], rest := [] })) ∧
    Lexer.eat { peeked := none, peek_cache := [], rest := [] } = Res.ok none ∧
    Lexer.peek { peeked := none, peek_cache := [], rest := [] } = none ∧
    (∀ c cs, isRustWhitespace c = true →
      scanCommandName (c :: cs) =
        ScanResult.tok (Token.CommandName CommandName.Generic) ['\\'] (c :: cs)) := by
  refine ⟨by decide, by decide, by decide, by decide, by decide, ?_⟩
  intro c cs h
  simp only [scanCommandName]
  rw [if_pos h]

/-- C8 witness: backslash before a space leaves the space in the
input. -/
theorem C8_degenerate_backslash_witness :
    scanCommandName [' ', 'x'] =
      ScanResult.tok (Token.CommandName CommandName.Generic) ['\\'] [' ', 'x'] :=
  C8_degenerate_backslash.2.2.2.2.2 ' ' ['x'] (by decide)

/-- C9 counterexample: the claim asserts that draining every input ends
with `eat` returning none; on backslash-z-e-acute the construction of
the lexer and the drain at the claim's own fuel bound (input length
plus one) panic instead of reaching none. -/
theorem C9_counterexample :
    Lexer.new ['\\', 'z', 'é'] = Res.panic ∧
    lexDrain 4 ['\\', 'z', 'é'] = Res.panic := by
  refine ⟨by decide, by decide⟩

/-- C9 (amended): for every input on which lexing does not panic,
draining through repeated `eat` terminates: with fuel one more than the
input length the drain completes, yields at most input-length-many
tokens, and the call made after the last token returns none; since a
none-returning `eat` leaves the lexer untouched, every subsequent call
returns none as well. -/
theorem C9_drain_terminates (input : List Char) (l : Lexer)
    (hnew : Lexer.new input = Res.ok l)
    (hnp : eats (input.length + 1) l ≠ Res.panic) :
    ∃ ts lf, eats (input.length + 1) l = Res.ok (some (ts, lf)) ∧
      ts.length ≤ input.length ∧ Lexer.eat lf = Res.ok none := by
  obtain ⟨hrem, hwf, _⟩ := new_spec _ _ hnew
  obtain ⟨ts, lf, hts⟩ := eats_adequate _ l hwf (by rw [hrem]; omega) hnp
  obtain ⟨_, _, hpn, hlen, _⟩ := eats_sound _ _ _ _ hwf hts
  rw [hrem] at hlen
  exact ⟨ts, lf, hts, hlen, eat_none _ hpn⟩

/-- C9 witness: the two-character input `ab` drains within three calls
and ends at none. -/
theorem C9_drain_terminates_witness :
    ∃ ts lf,
      eats (List.length ['a', 'b'] + 1) (newD ['a', 'b']) = Res.ok (some (ts, lf)) ∧
      ts.length ≤ List.length ['a', 'b'] ∧ Lexer.eat lf = Res.ok none :=
  C9_drain_terminates ['a', 'b'] (newD ['a', 'b']) (by decide) (by decide)

/-- C10: the current token's text slice is never empty.  Construction
establishes the well-formedness invariant `WF` (every buffered text
non-empty; an empty current slot only at full exhaustion); `eat` serves
a non-empty text and preserves `WF`; panic-free `consume_word`
preserves `WF` because it only trims in place when strictly more than
`n` bytes remain; every classifier step emits a non-empty slice; and
consequently `peek_char` returns none exactly when `peek` does. -/
theorem C10_text_nonempty :
    (∀ input l, Lexer.new input = Res.ok l → WF l) ∧
    (∀ l p l', WF l → Lexer.eat l = Res.ok (some (p, l')) → WF l' ∧ p.2 ≠ []) ∧
    (∀ l n l', WF l → Lexer.consume_word l n = Res.ok l' → WF l') ∧
    (∀ cs t text rest, nextToken cs = ScanResult.tok t text rest → text ≠ []) ∧
    (∀ l, WF l → (Lexer.peek_char l = none ↔ Lexer.peek l = none)) := by
  refine ⟨?_, ?_, ?_, ?_, ?_⟩
  · intro input l h
    exact (new_spec _ _ h).2.1
  · intro l p l' hwf h
    obtain ⟨hne, _, hwf', _⟩ := eat_step _ _ _ hwf h
    exact ⟨hwf', hne⟩
  · intro l n l' hwf h
    exact consume_word_wf _ _ _ hwf h
  · intro cs t text rest h
    exact (nextToken_sound _ _ _ _ h).2.1
  · intro l hwf
    cases hp : l.peeked with
    | none => simp [Lexer.peek_char, Lexer.peek_text, Lexer.peek, hp]
    | some p =>
      obtain ⟨k, t⟩ := p
      have hne : t ≠ [] := by
        have hall := hwf.2.1
        rw [hp] at hall
        simpa using hall
      cases ht : t with
      | nil => exact absurd ht hne
      | cons c cs' =>
        simp [Lexer.peek_char, Lexer.peek_text, Lexer.peek, hp, ht]

/-- C10 witness: the invariant and the peek equivalence at a concrete
lexer. -/
theorem C10_text_nonempty_witness :
    WF (newD ['x', 'y']) ∧
    (Lexer.peek_char (newD ['x', 'y']) = none ↔ Lexer.peek (newD ['x', 'y']) = none) :=
  ⟨C10_text_nonempty.1 ['x', 'y'] (newD ['x', 'y']) (by decide),
   C10_text_nonempty.2.2.2.2 (newD ['x', 'y'])
     (C10_text_nonempty.1 ['x', 'y'] (newD ['x', 'y']) (by decide))⟩

end Mitex
